import Mathlib

/-!
# Verification of the nest-chat-backend coordination core

A shallow embedding, in Lean 4, of the parts of the repository that the
frozen claims are about:

* the random-chat matchmaking gateway (waiting pool, match map, rate
  limiting, ICE-candidate batching) — `RandomChatGateway` in the source;
* the call lifecycle service (`CallService`): initiate / accept / end,
  group join/leave, missed marking;
* the chat read/delivery tracker (`ChatService`): per-row delivery and
  read receipts, the sender-facing aggregate status, and the bulk
  read-marking / conversation-deletion persistence discipline.

JavaScript `Map` objects are embedded as association lists with
`Map.get` / `Map.set` / `Map.delete` semantics (`aget` / `aset` /
`adel`).  Timestamps (`Date.now()`, `new Date()`) are naturals passed
explicitly to each operation.  Socket emissions are recorded in an
`emits` trace.  Logger output and the per-connection health metrics
(`connectionMetrics`) are not modelled: no claim mentions them and they
are read by no modelled operation.
-/

namespace NestChat

/-! ## Association-list model of the JavaScript Map -/

/-- Map lookup (`Map.get`): first entry with the given key. -/
def aget {α : Type} : List (String × α) → String → Option α
  | [], _ => none
  | (k', v) :: rest, k => if k' = k then some v else aget rest k

/-- Map insertion (`Map.set`): replace in place if the key exists, else append. -/
def aset {α : Type} : List (String × α) → String → α → List (String × α)
  | [], k, v => [(k, v)]
  | (k', v') :: rest, k, v =>
      if k' = k then (k, v) :: rest else (k', v') :: aset rest k v

/-- Map removal (`Map.delete`). -/
def adel {α : Type} (m : List (String × α)) (k : String) : List (String × α) :=
  m.filter (fun e => e.1 ≠ k)

/-! ## CallService (src/unnamed/part_019)

Enumerations are taken from the Prisma schema
(`prisma/migrations/..._call_model_add/migration.sql`).  A `Call` bundles
the call row together with its `CallParticipant` rows and its
`CallEvent` audit log, exactly the shape `findUnique({ include:
{ participants: true } })` hands to every operation.  Operations that can
throw (`BadRequestException` / `NotFoundException`) return `Except`;
the thrown branches in the source perform no prior write, so the error
value carries no state. -/

inductive CallType
  | AUDIO_1TO1 | VIDEO_1TO1 | AUDIO_GROUP | VIDEO_GROUP
deriving DecidableEq, Repr

inductive CallStatus
  | CALLING | RINGING | ACTIVE | ENDED | REJECTED | MISSED | FAILED
deriving DecidableEq, Repr

inductive CallParticipantStatus
  | INVITED | RINGING | JOINED | LEFT | REJECTED | MISSED
deriving DecidableEq, Repr

inductive CallEventType
  | CALL_INITIATED | CALL_RINGING | CALL_ACCEPTED | CALL_REJECTED | CALL_ENDED
  | PARTICIPANT_JOINED | PARTICIPANT_LEFT | PARTICIPANT_MUTED | PARTICIPANT_UNMUTED
  | VIDEO_ENABLED | VIDEO_DISABLED | CALL_FAILED
deriving DecidableEq, Repr

structure CallParticipant where
  userId : String
  status : CallParticipantStatus
  joinedAt : Option Nat
  leftAt : Option Nat
  isMuted : Bool
  isVideoOff : Bool
deriving DecidableEq, Repr

structure CallEvent where
  userId : Option String
  eventType : CallEventType
deriving DecidableEq, Repr

structure Call where
  initiatorId : String
  conversationId : Option String
  callType : CallType
  status : CallStatus
  startedAt : Nat
  endedAt : Option Nat
  duration : Option Nat
  participants : List CallParticipant
  events : List CallEvent
deriving DecidableEq, Repr

/-- Prisma `update({ where: { id: participant.id } })`: participant rows have
unique ids, and the service always resolves the id with `find`/`findFirst`,
which returns the first row matching the predicate — so the update hits
exactly the first matching row of the included list. -/
def updateFirst {α : Type} (p : α → Bool) (f : α → α) : List α → List α
  | [] => []
  | x :: xs => if p x then f x :: xs else x :: updateFirst p f xs

/-- `CallService.initiateCall`.  `users` is the `User` table (list of ids);
the recipients check compares the number of found users against
`recipientIds.length`.  `startedAt` defaults to the creation time. -/
def initiateCall (users : List String) (initiatorId : String)
    (recipientIds : List String) (callType : CallType)
    (conversationId : Option String) (now : Nat) : Except String Call :=
  let recipients := users.filter (fun u => recipientIds.contains u)
  if recipients.length ≠ recipientIds.length then
    .error "One or more recipients not found"
  else
    .ok
      { initiatorId := initiatorId
        conversationId := conversationId
        callType := callType
        status := .CALLING
        startedAt := now
        endedAt := none
        duration := none
        participants :=
          { userId := initiatorId, status := .JOINED, joinedAt := some now,
            leftAt := none, isMuted := false, isVideoOff := false } ::
          recipientIds.map (fun uid =>
            { userId := uid, status := .INVITED, joinedAt := none,
              leftAt := none, isMuted := false, isVideoOff := false })
        events := [{ userId := some initiatorId, eventType := .CALL_INITIATED }] }

/-- `CallService.acceptCall`: participant to `JOINED`, call to `ACTIVE`
(unconditionally — the source carries no status guard), log `CALL_ACCEPTED`. -/
def acceptCall (call : Call) (userId : String) (now : Nat) : Except String Call :=
  match call.participants.find? (fun p => p.userId == userId) with
  | none => .error "User is not a participant in this call"
  | some _ =>
      .ok
        { call with
          participants :=
            updateFirst (fun p => p.userId == userId)
              (fun p => { p with status := .JOINED, joinedAt := some now })
              call.participants
          status := .ACTIVE
          events := call.events ++ [{ userId := some userId, eventType := .CALL_ACCEPTED }] }

/-- `CallService.endCall`: status to `ENDED`, `endedAt`/`duration` recomputed
from the invocation time, every `JOINED` participant to `LEFT`, log
`CALL_ENDED`.  `duration = Math.floor((endedAt - startedAt) / 1000)` is
natural-number division here (the clock is monotone, so `endedAt ≥ startedAt`). -/
def endCall (call : Call) (userId : String) (now : Nat) : Call :=
  { call with
    status := .ENDED
    endedAt := some now
    duration := some ((now - call.startedAt) / 1000)
    participants :=
      call.participants.map (fun p =>
        if p.status == .JOINED then { p with status := .LEFT, leftAt := some now } else p)
    events := call.events ++ [{ userId := some userId, eventType := .CALL_ENDED }] }

/-- `CallService.joinGroupCall`: rejects non-group kinds, then upserts the
participant row to `JOINED` (creating one if the user was never invited). -/
def joinGroupCall (call : Call) (userId : String) (now : Nat) : Except String Call :=
  if call.callType ≠ .AUDIO_GROUP ∧ call.callType ≠ .VIDEO_GROUP then
    .error "This is not a group call"
  else
    match call.participants.find? (fun p => p.userId == userId) with
    | some _ =>
        .ok
          { call with
            participants :=
              updateFirst (fun p => p.userId == userId)
                (fun p => { p with status := .JOINED, joinedAt := some now })
                call.participants
            events := call.events ++ [{ userId := some userId, eventType := .PARTICIPANT_JOINED }] }
    | none =>
        .ok
          { call with
            participants :=
              call.participants ++
                [{ userId := userId, status := .JOINED, joinedAt := some now,
                   leftAt := none, isMuted := false, isVideoOff := false }]
            events := call.events ++ [{ userId := some userId, eventType := .PARTICIPANT_JOINED }] }

/-- Number of participants currently in `JOINED` status
(`callParticipant.count({ where: { status: JOINED } })`). -/
def countJoined (call : Call) : Nat :=
  (call.participants.filter (fun p => p.status == .JOINED)).length

/-- The participant update and audit event of `leaveGroupCall`, before the
remaining-participant count is taken. -/
def leaveUpdate (call : Call) (userId : String) (now : Nat) : Call :=
  { call with
    participants :=
      updateFirst (fun p => p.userId == userId)
        (fun p => { p with status := .LEFT, leftAt := some now })
        call.participants
    events := call.events ++ [{ userId := some userId, eventType := .PARTICIPANT_LEFT }] }

/-- `CallService.leaveGroupCall`: no call-kind check in the source.  Sets the
participant to `LEFT`, then ends the whole call if no `JOINED` participant
remains. -/
def leaveGroupCall (call : Call) (userId : String) (now : Nat) : Except String Call :=
  match call.participants.find? (fun p => p.userId == userId) with
  | none => .error "User is not a participant in this call"
  | some _ =>
      let c1 := leaveUpdate call userId now
      if countJoined c1 = 0 then .ok (endCall c1 userId now) else .ok c1

/-- `CallService.markCallAsMissed`: participant to `MISSED`; for 1:1 kinds the
whole call is set to `MISSED` with `endedAt` stamped — with no guard on the
current call status. -/
def markCallAsMissed (call : Call) (userId : String) (now : Nat) : Except String Call :=
  match call.participants.find? (fun p => p.userId == userId) with
  | none => .error "Participant not found"
  | some _ =>
      let c1 :=
        { call with
          participants :=
            updateFirst (fun p => p.userId == userId)
              (fun p => { p with status := .MISSED }) call.participants }
      if c1.callType = .AUDIO_1TO1 ∨ c1.callType = .VIDEO_1TO1 then
        .ok { c1 with status := .MISSED, endedAt := some now }
      else
        .ok c1

/-- Status of the call produced by an operation, `none` when it threw. -/
def statusOfResult : Except String Call → Option CallStatus
  | .ok c => some c.status
  | .error _ => none

/-- Status of the (first) participant row of a user, inside an operation
result; `none` when the operation threw or the user has no row. -/
def partStatusOfResult (r : Except String Call) (userId : String) :
    Option CallParticipantStatus :=
  match r with
  | .ok c => (c.participants.find? (fun p => p.userId == userId)).map (fun p => p.status)
  | .error _ => none

/-- Status of the (first) participant row of a user in a call. -/
def partStatus (call : Call) (userId : String) : Option CallParticipantStatus :=
  (call.participants.find? (fun p => p.userId == userId)).map (fun p => p.status)

/-- How many `CallEvent` rows of a given type the call's audit log holds. -/
def countCallEvents (call : Call) (et : CallEventType) : Nat :=
  (call.events.filter (fun e => e.eventType == et)).length

/-- Did the operation succeed (no exception)? -/
def isOkCall : Except String Call → Bool
  | .ok _ => true
  | .error _ => false

/-! ## RandomChatGateway (src/unnamed/part_004)

Socket objects carry `id` (the connection id), `data.userId` and
`data.username`.  Liveness (`socket.connected`) is external to the
gateway's own state and changes with the network: each `find-partner`
request therefore takes the list `live` of connection ids whose sockets
are connected at that moment.  `Date.now()` is the explicit `t`
argument.  Everything the gateway emits is recorded in the `emits`
trace; the payload timestamps and log lines are not modelled. -/

structure Socket where
  id : String
  userId : String
  username : String
deriving DecidableEq, Repr

inductive GwEvent
  | rateLimited (toId : String)
  | alreadyInMatch (toId : String)
  | alreadyInQueue (toId : String)
  | matchFound (toId : String) (role : String) (partnerName : String)
  | waitingForPartner (toId : String) (queuePosition : Nat)
  | matchEnded (toId : String)
  | leftPool (toId : String)
  | iceCandidatesBatch (toId : String) (candidates : List String)
deriving DecidableEq, Repr

/-- A pending ICE batch: the buffered candidates (opaque payloads, embedded
as strings) plus the partner id that the `setTimeout` closure captured when
the batch was created — that is the target the delayed flush will use. -/
structure IceBatch where
  candidates : List String
  timerPartnerId : String
deriving DecidableEq, Repr

structure GatewayState where
  waitingQueue : List Socket
  matchMap : List (String × String)
  rateLimitMap : List (String × Nat)
  iceCandidateBatches : List (String × IceBatch)
  emits : List GwEvent
deriving DecidableEq, Repr

def RATE_LIMIT_MS : Nat := 1000

/-- The test half of `isRateLimited`: `lastAction && now - lastAction <
RATE_LIMIT_MS`.  A recorded timestamp of `0` is falsy in JavaScript, hence
the `last ≠ 0` conjunct. -/
def rateLimitCheck (rl : List (String × Nat)) (userId : String) (now : Nat) : Bool :=
  match aget rl userId with
  | some last => decide (last ≠ 0) && decide (now - last < RATE_LIMIT_MS)
  | none => false

/-- The stamp half of `isRateLimited`: executed only when the check passed. -/
def rateLimitStamp (rl : List (String × Nat)) (userId : String) (now : Nat) :
    List (String × Nat) :=
  aset rl userId now

/-- `RandomChatGateway.handleFindPartner`, with the waiting queue as the
recursion argument: the stale-partner branch pops the partner and then
re-invokes the handler on the shrunken queue (`this.handleFindPartner(client)`
after `this.waitingQueue.delete(partner)`), so the queue decreases at every
recursive call.  All other mutable fields are threaded unchanged except the
rate-limit map, which the re-entry reads back. -/
def fpGo (c : Socket) (live : List String) (t : Nat) :
    List Socket → List (String × String) → List (String × Nat) →
    List (String × IceBatch) → List GwEvent → GatewayState
  | q, ms, rl, bs, em =>
    if rateLimitCheck rl c.userId t then
      ⟨q, ms, rl, bs, em ++ [.rateLimited c.id]⟩
    else if (aget ms c.id).isSome then
      ⟨q, ms, rateLimitStamp rl c.userId t, bs, em ++ [.alreadyInMatch c.id]⟩
    else if q.any (fun s => s.id == c.id) then
      ⟨q, ms, rateLimitStamp rl c.userId t, bs, em ++ [.alreadyInQueue c.id]⟩
    else
      match q with
      | [] =>
          ⟨[c], ms, rateLimitStamp rl c.userId t, bs,
            em ++ [.waitingForPartner c.id 1]⟩
      | partner :: rest =>
          if live.contains partner.id then
            ⟨rest, aset (aset ms c.id partner.id) partner.id c.id,
              rateLimitStamp rl c.userId t, bs,
              em ++ [.matchFound c.id "initiator" partner.username,
                     .matchFound partner.id "receiver" c.username]⟩
          else
            fpGo c live t rest ms (rateLimitStamp rl c.userId t) bs em

def handleFindPartner (st : GatewayState) (c : Socket) (live : List String)
    (t : Nat) : GatewayState :=
  fpGo c live t st.waitingQueue st.matchMap st.rateLimitMap
    st.iceCandidateBatches st.emits

/-- `RandomChatGateway.cleanupUser`: drop the socket from the queue; if it
held a match, notify the partner and delete both match-map entries. -/
def cleanupUser (st : GatewayState) (c : Socket) : GatewayState :=
  let q := st.waitingQueue.filter (fun s => s.id ≠ c.id)
  match aget st.matchMap c.id with
  | some partnerId =>
      { st with
        waitingQueue := q
        matchMap := adel (adel st.matchMap partnerId) c.id
        emits := st.emits ++ [.matchEnded partnerId] }
  | none => { st with waitingQueue := q, matchMap := adel st.matchMap c.id }

/-- `RandomChatGateway.handleLeavePool`. -/
def handleLeavePool (st : GatewayState) (c : Socket) : GatewayState :=
  let st1 := cleanupUser st c
  { st1 with emits := st1.emits ++ [.leftPool c.id] }

/-- `cleanupIceBatch`: clear the pending timer and drop the batch. -/
def cleanupIceBatch (bs : List (String × IceBatch)) (socketId : String) :
    List (String × IceBatch) :=
  adel bs socketId

/-- `RandomChatGateway.handleDisconnect`: user cleanup, rate-limit record
removal, pending-ICE-batch cancellation (metrics are not modelled). -/
def handleDisconnect (st : GatewayState) (c : Socket) : GatewayState :=
  let st1 := cleanupUser st c
  { st1 with
    rateLimitMap := adel st1.rateLimitMap c.userId
    iceCandidateBatches := cleanupIceBatch st1.iceCandidateBatches c.id }

/-- `RandomChatGateway.flushIceBatch(socketId, partnerId)`: emit the whole
batch to `partnerId` in one message and drop the batch. -/
def flushIceBatch (st : GatewayState) (socketId partnerId : String) : GatewayState :=
  match aget st.iceCandidateBatches socketId with
  | none => st
  | some batch =>
      if batch.candidates.isEmpty then st
      else
        { st with
          emits := st.emits ++ [.iceCandidatesBatch partnerId batch.candidates]
          iceCandidateBatches := adel st.iceCandidateBatches socketId }

/-- `RandomChatGateway.handleIceCandidate`: dropped when unmatched; otherwise
get-or-create the batch (a new batch arms a timer whose closure captures the
partner id of this invocation), append the candidate, and flush immediately
to the partner of this invocation once the batch holds 5 candidates. -/
def handleIceCandidate (st : GatewayState) (c : Socket) (candidate : String) :
    GatewayState :=
  match aget st.matchMap c.id with
  | none => st
  | some partnerId =>
      let batch :=
        match aget st.iceCandidateBatches c.id with
        | none => { candidates := [], timerPartnerId := partnerId : IceBatch }
        | some b => b
      let batch := { batch with candidates := batch.candidates ++ [candidate] }
      let st1 := { st with iceCandidateBatches := aset st.iceCandidateBatches c.id batch }
      if 5 ≤ batch.candidates.length then
        flushIceBatch st1 c.id partnerId
      else
        st1

/-- Expiry of the 50 ms batching timer for a sender: the flush goes to the
partner id the `setTimeout` closure captured at batch creation.  A fired or
cleared timer always coincides with batch removal, so a live batch means a
pending timer. -/
def fireIceTimer (st : GatewayState) (socketId : String) : GatewayState :=
  match aget st.iceCandidateBatches socketId with
  | none => st
  | some batch => flushIceBatch st socketId batch.timerPartnerId

/-- The gateway events a test run can feed the handlers, in arrival order. -/
inductive GwOp
  | findPartner (c : Socket) (live : List String) (t : Nat)
  | leavePool (c : Socket)
  | disconnect (c : Socket)
  | iceCandidate (c : Socket) (candidate : String)
  | iceTimerFire (socketId : String)
deriving Repr

def GatewayState.init : GatewayState := ⟨[], [], [], [], []⟩

def applyGwOp (st : GatewayState) : GwOp → GatewayState
  | .findPartner c live t => handleFindPartner st c live t
  | .leavePool c => handleLeavePool st c
  | .disconnect c => handleDisconnect st c
  | .iceCandidate c cand => handleIceCandidate st c cand
  | .iceTimerFire sid => fireIceTimer st sid

def runGwOps (ops : List GwOp) : GatewayState :=
  ops.foldl applyGwOp GatewayState.init

/-- The match map is symmetric: A → B implies B → A. -/
def MatchMapSymmetric (ms : List (String × String)) : Prop :=
  ∀ a b, aget ms a = some b → aget ms b = some a

/-- No connection id appears in more than one match. -/
def AtMostOneMatch (ms : List (String × String)) : Prop :=
  ∀ a b p, aget ms a = some p → aget ms b = some p → a = b

/-- No connection id holding a match sits in the waiting pool. -/
def MatchedNotWaiting (ms : List (String × String)) (q : List Socket) : Prop :=
  ∀ a b, aget ms a = some b → ∀ s ∈ q, s.id ≠ a

/-- Auxiliary strengthening: queue entries carry pairwise distinct ids. -/
def GwInv (st : GatewayState) : Prop :=
  MatchMapSymmetric st.matchMap ∧ MatchedNotWaiting st.matchMap st.waitingQueue ∧
    (st.waitingQueue.map (fun s => s.id)).Nodup

/-! ## ChatService read/delivery tracking (src/src/chat/chat.service.ts)

`MessageRead` rows are keyed by `(messageId, userId)`.  The durable store
is a `DbState`; Prisma writes are reified as `DbWrite` values so that the
two execution disciplines the service uses — `prisma.$transaction([...])`
(all-or-none) and `Promise.all([...])` of independent writes (each write
commits or fails on its own; the aggregate merely rejects if any failed) —
can be compared.  `fails` says which individual writes the store rejects. -/

structure MsgMeta where
  id : String
  conversationId : String
  senderId : String
  createdAt : Nat
deriving DecidableEq, Repr

structure MRRow where
  messageId : String
  userId : String
  deliveredAt : Option Nat
  readAt : Option Nat
deriving DecidableEq, Repr

structure ConversationRead where
  conversationId : String
  userId : String
  lastReadMessageId : String
  lastReadAt : Nat
deriving DecidableEq, Repr

structure Conversation where
  id : String
  isGroup : Bool
  ownerId : Option String
deriving DecidableEq, Repr

structure DbState where
  conversations : List Conversation
  convUsers : List (String × String)
  messages : List MsgMeta
  rows : List MRRow
  convReads : List ConversationRead
deriving DecidableEq, Repr

def findRow (rows : List MRRow) (messageId userId : String) : Option MRRow :=
  rows.find? (fun r => r.messageId == messageId && r.userId == userId)

/-- `messageRead.upsert({ where: { messageId_userId: ... }, create, update })`. -/
def upsertRow (rows : List MRRow) (messageId userId : String)
    (created : MRRow) (upd : MRRow → MRRow) : List MRRow :=
  if (findRow rows messageId userId).isSome then
    updateFirst (fun r => r.messageId == messageId && r.userId == userId) upd rows
  else
    rows ++ [created]

/-- `conversationRead.upsert({ where: { conversationId_userId: ... } })`. -/
def upsertConvRead (crs : List ConversationRead) (cid uid mid : String)
    (now : Nat) : List ConversationRead :=
  if (crs.find? (fun c => c.conversationId == cid && c.userId == uid)).isSome then
    updateFirst (fun c => c.conversationId == cid && c.userId == uid)
      (fun c => { c with lastReadMessageId := mid, lastReadAt := now }) crs
  else
    crs ++ [{ conversationId := cid, userId := uid, lastReadMessageId := mid,
              lastReadAt := now }]

/-- `ChatService.markMessageAsDelivered`: missing message throws (no write),
the sender's own message is skipped, otherwise upsert with `deliveredAt`
set — `readAt` stays `null` on create and untouched on update. -/
def markMessageAsDelivered (st : DbState) (messageId userId : String)
    (now : Nat) : DbState :=
  match st.messages.find? (fun m => m.id == messageId) with
  | none => st
  | some msg =>
      if msg.senderId == userId then st
      else
        { st with
          rows := upsertRow st.rows messageId userId
            { messageId := messageId, userId := userId,
              deliveredAt := some now, readAt := none }
            (fun r => { r with deliveredAt := some now }) }

/-- `ChatService.markMessageAsRead`: upsert with `readAt` set; the create
branch also stamps `deliveredAt`, the update branch touches `readAt` only. -/
def markMessageAsRead (st : DbState) (messageId userId : String)
    (now : Nat) : DbState :=
  match st.messages.find? (fun m => m.id == messageId) with
  | none => st
  | some msg =>
      if msg.senderId == userId then st
      else
        { st with
          rows := upsertRow st.rows messageId userId
            { messageId := messageId, userId := userId,
              deliveredAt := some now, readAt := some now }
            (fun r => { r with readAt := some now }) }

/-- `message.findFirst({ orderBy: { createdAt: desc } })` over the other
participants' messages of the conversation: the newest such message. -/
def latestOther (msgs : List MsgMeta) (cid uid : String) : Option MsgMeta :=
  (msgs.filter (fun m => m.conversationId == cid && m.senderId != uid)).foldl
    (fun acc m =>
      match acc with
      | none => some m
      | some a => if a.createdAt < m.createdAt then some m else some a)
    none

/-- The messages `markConversationAsRead` upserts a read row for. -/
def unreadTargets (st : DbState) (cid uid : String) : List MsgMeta :=
  match latestOther st.messages cid uid with
  | none => []
  | some lm =>
      (st.messages.filter (fun m => m.conversationId == cid && m.senderId != uid)).filter
        (fun m => m.createdAt ≤ lm.createdAt)

/-- The individual Prisma writes the two bulk operations issue. -/
inductive DbWrite
  | upsertReadRow (messageId userId : String) (now : Nat)
  | upsertConversationRead (conversationId userId messageId : String) (now : Nat)
  | deleteConvMessages (conversationId : String)
  | deleteConvUsers (conversationId : String)
  | deleteConv (conversationId : String)
deriving DecidableEq, Repr

def applyDbWrite (st : DbState) : DbWrite → DbState
  | .upsertReadRow mid uid now =>
      { st with
        rows := upsertRow st.rows mid uid
          { messageId := mid, userId := uid,
            deliveredAt := some now, readAt := some now }
          (fun r => { r with readAt := some now }) }
  | .upsertConversationRead cid uid mid now =>
      { st with convReads := upsertConvRead st.convReads cid uid mid now }
  | .deleteConvMessages cid =>
      { st with messages := st.messages.filter (fun m => m.conversationId ≠ cid) }
  | .deleteConvUsers cid =>
      { st with convUsers := st.convUsers.filter (fun e => e.1 ≠ cid) }
  | .deleteConv cid =>
      { st with conversations := st.conversations.filter (fun c => c.id ≠ cid) }

/-- `Promise.all` over independent writes: every write that the store does
not reject commits, regardless of the other writes; rejected ones do not. -/
def runIndependentWrites (fails : DbWrite → Bool) (st : DbState)
    (ws : List DbWrite) : DbState :=
  ws.foldl (fun s w => if fails w then s else applyDbWrite s w) st

/-- `prisma.$transaction`: if any write of the batch fails, nothing commits. -/
def runTransactionWrites (fails : DbWrite → Bool) (st : DbState)
    (ws : List DbWrite) : DbState :=
  if ws.any fails then st else ws.foldl applyDbWrite st

/-- The batch of per-message read upserts `markConversationAsRead` hands to
`Promise.all`. -/
def readMarkWrites (st : DbState) (cid uid : String) (now : Nat) : List DbWrite :=
  (unreadTargets st cid uid).map (fun m => DbWrite.upsertReadRow m.id uid now)

/-- `ChatService.markConversationAsRead`: no-op when the others have no
message; otherwise the per-message read upserts run under `Promise.all`
(independent writes), and the `ConversationRead` pointer update runs only
if that `Promise.all` did not reject and the store accepts it. -/
def markConversationAsReadDb (fails : DbWrite → Bool) (st : DbState)
    (cid uid : String) (now : Nat) : DbState :=
  match latestOther st.messages cid uid with
  | none => st
  | some lm =>
      if (readMarkWrites st cid uid now).any fails then
        runIndependentWrites fails st (readMarkWrites st cid uid now)
      else if fails (.upsertConversationRead cid uid lm.id now) then
        runIndependentWrites fails st (readMarkWrites st cid uid now)
      else
        applyDbWrite (runIndependentWrites fails st (readMarkWrites st cid uid now))
          (.upsertConversationRead cid uid lm.id now)

/-- The three deletes of `deleteConversation`, in source order. -/
def deleteConvWrites (cid : String) : List DbWrite :=
  [.deleteConvMessages cid, .deleteConvUsers cid, .deleteConv cid]

/-- `ChatService.deleteConversation`: permission checks throw before any
write; the three deletes then run inside one `$transaction`. -/
def deleteConversationDb (fails : DbWrite → Bool) (st : DbState)
    (cid uid : String) : DbState :=
  match st.conversations.find? (fun c => c.id == cid) with
  | none => st
  | some conv =>
      if conv.isGroup then
        if conv.ownerId ≠ some uid then st
        else runTransactionWrites fails st (deleteConvWrites cid)
      else
        if (st.convUsers.find? (fun e => e.1 == cid && e.2 == uid)).isSome then
          runTransactionWrites fails st (deleteConvWrites cid)
        else st

/-- The read-tracking operations of claim C8, on the success path (the
store rejects no write). -/
inductive ChatOp
  | markDelivered (messageId userId : String) (now : Nat)
  | markRead (messageId userId : String) (now : Nat)
  | markConversationRead (conversationId userId : String) (now : Nat)
deriving Repr

def applyChatOp (st : DbState) : ChatOp → DbState
  | .markDelivered mid uid now => markMessageAsDelivered st mid uid now
  | .markRead mid uid now => markMessageAsRead st mid uid now
  | .markConversationRead cid uid now =>
      markConversationAsReadDb (fun _ => false) st cid uid now

def runChatOps (init : DbState) (ops : List ChatOp) : DbState :=
  ops.foldl applyChatOp init

/-! ## The sender-facing aggregate message status
(`ChatService.getMessagesWithReadStatus`, the `message.senderId === userId`
branch).  The message carries its existing `MessageRead` rows (`reads`),
each with the reading user's id. -/

structure MessageRead where
  userId : String
  deliveredAt : Option Nat
  readAt : Option Nat
deriving DecidableEq, Repr

structure ChatMessage where
  id : String
  senderId : String
  reads : List MessageRead
deriving DecidableEq, Repr

/-- The per-message status computation of `getMessagesWithReadStatus`: for
the sender, an aggregate over the *existing* rows of other users; for a
recipient, their own row's state. -/
def messageStatus (message : ChatMessage) (userId : String) : String :=
  let myReadStatus := message.reads.find? (fun r => r.userId == userId)
  if message.senderId == userId then
    let othersRead := message.reads.filter (fun r => r.userId != userId)
    let allRead := othersRead.all (fun r => r.readAt.isSome)
    let anyDelivered := othersRead.any (fun r => r.deliveredAt.isSome)
    if allRead ∧ 0 < othersRead.length then "read"
    else if anyDelivered then "delivered"
    else "sent"
  else
    match myReadStatus with
    | some r =>
        if r.readAt.isSome then "read"
        else if r.deliveredAt.isSome then "delivered"
        else "sent"
    | none => "sent"

/-- Modelled from the spec: the sender-facing aggregate computed "over all
conversation participants other than the sender", where a participant with
no `MessageRead` row counts against `read` and contributes no `deliveredAt`.
Stated from the spec's words only, for comparison with `messageStatus`. -/
def specAggregateStatus (participantIds : List String) (message : ChatMessage) :
    String :=
  let others := participantIds.filter (fun u => u != message.senderId)
  let rowOf := fun u => message.reads.find? (fun r => r.userId == u)
  if 0 < others.length ∧ others.all (fun u => ((rowOf u).bind (fun r => r.readAt)).isSome) then
    "read"
  else if others.any (fun u => ((rowOf u).bind (fun r => r.deliveredAt)).isSome) then
    "delivered"
  else
    "sent"

/-! ## Concrete scenario constants used by counterexamples and witnesses -/

/-- The call produced by `initiateCall(["A","B"], "A", ["B"], VIDEO_1TO1)` at
time 8000 (checked by `cInit_reachable` below). -/
def cInit : Call :=
  { initiatorId := "A", conversationId := none, callType := .VIDEO_1TO1,
    status := .CALLING, startedAt := 8000, endedAt := none, duration := none,
    participants :=
      [{ userId := "A", status := .JOINED, joinedAt := some 8000, leftAt := none,
         isMuted := false, isVideoOff := false },
       { userId := "B", status := .INVITED, joinedAt := none, leftAt := none,
         isMuted := false, isVideoOff := false }],
    events := [{ userId := some "A", eventType := .CALL_INITIATED }] }

/-- `cInit` after `acceptCall(_, "B")` at time 9000 (checked by
`cAccepted_reachable` below). -/
def cAccepted : Call :=
  { cInit with
    participants :=
      [{ userId := "A", status := .JOINED, joinedAt := some 8000, leftAt := none,
         isMuted := false, isVideoOff := false },
       { userId := "B", status := .JOINED, joinedAt := some 9000, leftAt := none,
         isMuted := false, isVideoOff := false }],
    status := .ACTIVE,
    events := cInit.events ++ [{ userId := some "B", eventType := .CALL_ACCEPTED }] }

/-- `cAccepted` ended by "A" at time 50000: `ENDED`, `duration = 42`. -/
def cEnded : Call := endCall cAccepted "A" 50000

def sPool : Socket := { id := "s1", userId := "u1", username := "S1" }

def sReq : Socket := { id := "r1", userId := "u2", username := "R1" }

/-- `s1` enqueues itself at t = 0, its socket then drops without a disconnect
event (a stale pool entry); the requester asks at t = 5000 with `s1` no
longer connected. -/
def staleOps : List GwOp :=
  [.findPartner sPool ["s1"] 0, .findPartner sReq [] 5000]

def sA : Socket := { id := "a1", userId := "ua", username := "A1" }

def sP1 : Socket := { id := "p1", userId := "up1", username := "P1" }

def sP2 : Socket := { id := "p2", userId := "up2", username := "P2" }

/-- Sender `a1` matches `p1` and buffers one ICE candidate: the batch timer
captures `p1`. -/
def iceOpsCapture : List GwOp :=
  [.findPartner sP1 ["p1"] 0,
   .findPartner sA ["p1"] 1500,
   .iceCandidate sA "c1"]

/-- ... then `p1` disconnects, `a1` re-matches with `p2`, and candidates 2–5
arrive: the 5th triggers the immediate flush. -/
def iceOpsAll : List GwOp :=
  iceOpsCapture ++
    [.disconnect sP1,
     .findPartner sP2 ["p2"] 3000,
     .findPartner sA ["p2"] 4500,
     .iceCandidate sA "c2", .iceCandidate sA "c3",
     .iceCandidate sA "c4", .iceCandidate sA "c5"]

/-- A 3-person conversation: sender "U", recipients "B" and "C"; only "B"
has a `MessageRead` row (delivered and read), "C" has none. -/
def cxMsg : ChatMessage :=
  { id := "m1", senderId := "U",
    reads := [{ userId := "B", deliveredAt := some 10, readAt := some 20 }] }

/-- A group conversation with two messages from "A"; "B" will bulk-mark it
read while the store rejects the write for message `m2`. -/
def dbSt : DbState :=
  { conversations := [{ id := "conv1", isGroup := true, ownerId := some "A" }],
    convUsers := [("conv1", "A"), ("conv1", "B")],
    messages :=
      [{ id := "m1", conversationId := "conv1", senderId := "A", createdAt := 1 },
       { id := "m2", conversationId := "conv1", senderId := "A", createdAt := 2 }],
    rows := [], convReads := [] }

def failsM2 : DbWrite → Bool := fun w => w == .upsertReadRow "m2" "B" 7

end NestChat

deriving instance DecidableEq for Except

namespace NestChat

/-! ## Lemmas about the Map embedding -/

theorem aget_aset_self {α : Type} (m : List (String × α)) (k : String) (v : α) :
    aget (aset m k v) k = some v := by
  induction m with
  | nil => simp [aget, aset]
  | cons e rest ih =>
      obtain ⟨k', v'⟩ := e
      by_cases h : k' = k <;> simp [aget, aset, h, ih]

theorem aget_aset_ne {α : Type} (m : List (String × α)) (k k' : String) (v : α)
    (h : k' ≠ k) : aget (aset m k v) k' = aget m k' := by
  have h' : k ≠ k' := Ne.symm h
  induction m with
  | nil => simp [aget, aset, h']
  | cons e rest ih =>
      obtain ⟨k₀, v₀⟩ := e
      by_cases h0 : k₀ = k
      · subst h0
        simp [aget, aset, h']
      · by_cases h1 : k₀ = k' <;> simp [aget, aset, h0, h1, ih, h]

theorem aget_adel_self {α : Type} (m : List (String × α)) (k : String) :
    aget (adel m k) k = none := by
  induction m with
  | nil => simp [aget, adel]
  | cons e rest ih =>
      obtain ⟨k₀, v₀⟩ := e
      by_cases h0 : k₀ = k <;> simp_all [aget, adel, List.filter_cons]

theorem aget_adel_ne {α : Type} (m : List (String × α)) (k k' : String)
    (h : k' ≠ k) : aget (adel m k) k' = aget m k' := by
  have h' : k ≠ k' := Ne.symm h
  induction m with
  | nil => simp [aget, adel]
  | cons e rest ih =>
      obtain ⟨k₀, v₀⟩ := e
      by_cases h0 : k₀ = k
      · subst h0
        simp_all [aget, adel, List.filter_cons, h']
      · by_cases h1 : k₀ = k' <;> simp_all [aget, adel, List.filter_cons]

/-! ## Lemmas about updateFirst / find? -/

theorem find?_updateFirst {α : Type} (p : α → Bool) (f : α → α) (l : List α)
    (hpf : ∀ x, p (f x) = p x) :
    (updateFirst p f l).find? p = (l.find? p).map f := by
  induction l with
  | nil => simp [updateFirst]
  | cons x xs ih =>
      by_cases h : p x
      · rw [updateFirst]
        simp [h, List.find?_cons_of_pos, hpf x]
      · rw [updateFirst]
        simp [h, List.find?_cons_of_neg, ih]

theorem find?_append_of_none {α : Type} (p : α → Bool) (l : List α) (a : α)
    (hl : l.find? p = none) (ha : p a = true) : (l ++ [a]).find? p = some a := by
  induction l with
  | nil => simp [List.find?, ha]
  | cons x xs ih =>
      by_cases h : p x
      · rw [List.find?_cons_of_pos _ h] at hl
        exact absurd hl (by simp)
      · rw [List.find?_cons_of_neg _ h] at hl
        rw [List.cons_append, List.find?_cons_of_neg _ h]
        exact ih hl

theorem find?_map_pres {α : Type} (p : α → Bool) (g : α → α) (l : List α)
    (hpg : ∀ x, p (g x) = p x) :
    (l.map g).find? p = (l.find? p).map g := by
  induction l with
  | nil => simp
  | cons x xs ih =>
      by_cases h : p x
      · simp [List.find?_cons_of_pos, h, hpg x]
      · simp [List.find?_cons_of_neg, h, hpg x, ih]

/-! ## Claim C1 — stale-partner retry

The claim says a requester whose popped partner is stale always ends
matched or enqueued.  In the code, the retry re-enters
`handleFindPartner`, whose `isRateLimited` check compares against the
timestamp the original entry just stamped — the elapsed time is ~0 ms, so
the retry is always rejected as rate-limited: the requester ends neither
matched nor enqueued (and only the one popped stale entry was removed).
The gateway's own log line announces "retrying match", so the dead retry
contradicts the code's intent: a code bug, evaluated here. -/

/-- C1: evaluating `handleFindPartner` at the failing input.  `s1` waits in
the pool but its socket is stale; requester `r1` (not rate-limited — its
last action was never or ≥ 1 s ago) asks for a partner at t = 5000.  The
pool is drained of the stale entry, but the requester receives
`rate-limited` and is left neither matched nor enqueued — contradicting
the claim. -/
theorem stale_retry_rate_limited :
    (runGwOps staleOps).waitingQueue = [] ∧
    aget (runGwOps staleOps).matchMap "r1" = none ∧
    (runGwOps staleOps).emits =
      [.waitingForPartner "s1" 1, .rateLimited "r1"] := by
  decide

/-! ## Claim C5 — the VIDEO_1TO1 happy-path scenario -/

/-- C5: for any start time and accept time, `initiateCall(A, [B],
VIDEO_1TO1)` yields a `CALLING` call with B `INVITED` and A `JOINED`;
`acceptCall(B)` yields `ACTIVE` with B `JOINED`; `endCall` 42 s after
`startedAt` yields `ENDED` with `duration = 42` (floor of milliseconds /
1000) and every `JOINED` participant moved to `LEFT`. -/
theorem video1to1_scenario (t0 t1 : Nat) :
    ∃ c0 c1,
      initiateCall ["A", "B"] "A" ["B"] .VIDEO_1TO1 none t0 = .ok c0 ∧
      c0.status = .CALLING ∧
      partStatus c0 "B" = some .INVITED ∧
      partStatus c0 "A" = some .JOINED ∧
      acceptCall c0 "B" t1 = .ok c1 ∧
      c1.status = .ACTIVE ∧
      partStatus c1 "B" = some .JOINED ∧
      (endCall c1 "A" (t0 + 42000)).status = .ENDED ∧
      (endCall c1 "A" (t0 + 42000)).duration = some 42 ∧
      ((endCall c1 "A" (t0 + 42000)).participants.all
        (fun p => p.status == .LEFT)) = true := by
  refine ⟨_, _, rfl, rfl, ?_, ?_, rfl, rfl, ?_, rfl, ?_, ?_⟩
  · simp [partStatus, initiateCall]
  · simp [partStatus, initiateCall]
  · simp [partStatus, acceptCall, initiateCall, updateFirst]
  · simp [endCall, Nat.add_sub_cancel_left]
  · simp [endCall, acceptCall, initiateCall, updateFirst]

/-! ## Claim C3 — endCall is not idempotent -/

/-- C3 counterexample: `cEnded` is reachable (initiate at 8000, accept at
9000, end at 50000) and sits in status `ENDED` with `endedAt = 50000`,
`duration = 42` and one `CALL_ENDED` event; invoking `endCall` again at
60000 keeps `ENDED` but overwrites `endedAt` (60000) and `duration` (52)
and appends a second `CALL_ENDED` event — the claim's "same endedAt and
duration, no second CALL_ENDED" fails. -/
theorem endCall_not_idempotent_cex :
    initiateCall ["A", "B"] "A" ["B"] .VIDEO_1TO1 none 8000 = .ok cInit ∧
    acceptCall cInit "B" 9000 = .ok cAccepted ∧
    cEnded.status = .ENDED ∧
    cEnded.endedAt = some 50000 ∧
    cEnded.duration = some 42 ∧
    countCallEvents cEnded .CALL_ENDED = 1 ∧
    (endCall cEnded "A" 60000).status = .ENDED ∧
    (endCall cEnded "A" 60000).endedAt = some 60000 ∧
    (endCall cEnded "A" 60000).duration = some 52 ∧
    countCallEvents (endCall cEnded "A" 60000) .CALL_ENDED = 2 := by
  decide

/-- C3 amended: `endCall` on a call already in status `ENDED` keeps
`ENDED` but is not idempotent — it overwrites `endedAt` and `duration`
with the new invocation time and appends another `CALL_ENDED` event
(the source carries no re-entry guard). -/
theorem endCall_reend_behavior (call : Call) (userId : String) (now : Nat)
    (h : call.status = .ENDED) :
    (endCall call userId now).status = .ENDED ∧
    (endCall call userId now).endedAt = some now ∧
    (endCall call userId now).duration = some ((now - call.startedAt) / 1000) ∧
    countCallEvents (endCall call userId now) .CALL_ENDED =
      countCallEvents call .CALL_ENDED + 1 := by
  refine ⟨rfl, rfl, rfl, ?_⟩
  simp [countCallEvents, endCall, List.filter_append]

/-- C3 amended, witness: the general statement applied to `cEnded` at
time 60000. -/
theorem endCall_reend_behavior_witness :
    (endCall cEnded "A" 60000).status = .ENDED ∧
    (endCall cEnded "A" 60000).endedAt = some 60000 ∧
    (endCall cEnded "A" 60000).duration = some ((60000 - cEnded.startedAt) / 1000) ∧
    countCallEvents (endCall cEnded "A" 60000) .CALL_ENDED =
      countCallEvents cEnded .CALL_ENDED + 1 :=
  endCall_reend_behavior cEnded "A" 60000 (by decide)

/-! ## Claim C4 — terminal call statuses are not preserved -/

/-- C4 counterexample: `cEnded` is terminal (`ENDED`), yet `acceptCall`
moves it back to `ACTIVE`, and `markCallAsMissed` moves it (a
`VIDEO_1TO1` call) to `MISSED` — neither operation guards on the current
status, so a terminal call does not stay terminal. -/
theorem terminal_status_regression_cex :
    cEnded.status = .ENDED ∧
    statusOfResult (acceptCall cEnded "B" 70000) = some .ACTIVE ∧
    statusOfResult (markCallAsMissed cEnded "B" 70000) = some .MISSED := by
  decide

/-! ## Claim C6 — leaveGroupCall is not group-only -/

/-- C6 counterexample: `cAccepted` is a `VIDEO_1TO1` call, yet
`leaveGroupCall` succeeds on it (the claim requires an error with state
unchanged): B's row becomes `LEFT` and a `PARTICIPANT_LEFT` event is
appended, so durable state changed without an error. -/
theorem leaveGroupCall_on_1to1_cex :
    cAccepted.callType = .VIDEO_1TO1 ∧
    isOkCall (leaveGroupCall cAccepted "B" 60000) = true ∧
    partStatusOfResult (leaveGroupCall cAccepted "B" 60000) "B" = some .LEFT ∧
    (leaveGroupCall cAccepted "B" 60000 ≠ .ok cAccepted) := by
  decide

/-! ## Claim C7 — the sender aggregate ranges over rows, not participants -/

/-- C7 counterexample: in a 3-person conversation (sender "U",
recipients "B" and "C"), only "B" has a `MessageRead` row; "C" has none.
The code reports the sender aggregate as `read`, while the claim's rule —
computed over all participants, a missing row counting against `read` —
yields `delivered`. -/
theorem aggregate_status_missing_row_cex :
    (cxMsg.reads.all (fun r => r.userId != "C")) = true ∧
    messageStatus cxMsg "U" = "read" ∧
    specAggregateStatus ["U", "B", "C"] cxMsg = "delivered" := by
  decide

/-! ## Claim C9 — only conversation deletion is transactional -/

/-- C9 counterexample: conversation `conv1` holds messages `m1`, `m2`;
"B" bulk-marks it read while the store rejects the row write for `m2`.
Because the writes run under `Promise.all` and not a transaction, `m1`'s
row is persisted as read while `m2` has no row at all — a partial
outcome the claim says cannot happen. -/
theorem markConversationRead_partial_cex :
    failsM2 (.upsertReadRow "m2" "B" 7) = true ∧
    failsM2 (.upsertReadRow "m1" "B" 7) = false ∧
    findRow (markConversationAsReadDb failsM2 dbSt "conv1" "B" 7).rows "m1" "B" =
      some { messageId := "m1", userId := "B",
             deliveredAt := some 7, readAt := some 7 } ∧
    findRow (markConversationAsReadDb failsM2 dbSt "conv1" "B" 7).rows "m2" "B" =
      none := by
  decide

/-! ## Claim C10 — which partner an ICE flush targets -/

/-- C10 counterexample: sender `a1` matches `p1` and buffers candidate
`c1` (the batch captures `p1`); `p1` disconnects, `a1` re-matches with
`p2`, then candidates `c2`–`c5` arrive and the 5-candidate flush fires —
delivered to `p2`, the current match-map partner, not to the originally
captured `p1` as the claim requires. -/
theorem ice_flush_retarget_cex :
    aget (runGwOps iceOpsCapture).iceCandidateBatches "a1" =
      some { candidates := ["c1"], timerPartnerId := "p1" } ∧
    ((runGwOps iceOpsAll).emits.filter
      (fun e => match e with | .iceCandidatesBatch _ _ => true | _ => false)) =
      [.iceCandidatesBatch "p2" ["c1", "c2", "c3", "c4", "c5"]] := by
  decide

/-- C4 amended: neither cited operation guards on the current call status.
`acceptCall` sets the call to `ACTIVE` whenever the user is a participant —
including from the terminal statuses — and `markCallAsMissed` sets a 1:1
call to `MISSED` from any status, not only from `CALLING`/`RINGING`. -/
theorem acceptCall_markMissed_unguarded :
    (∀ (call : Call) (uid : String) (now : Nat),
        (call.participants.find? (fun p => p.userId == uid)).isSome →
        statusOfResult (acceptCall call uid now) = some .ACTIVE) ∧
    (∀ (call : Call) (uid : String) (now : Nat),
        (call.participants.find? (fun p => p.userId == uid)).isSome →
        (call.callType = .AUDIO_1TO1 ∨ call.callType = .VIDEO_1TO1) →
        statusOfResult (markCallAsMissed call uid now) = some .MISSED) := by
  constructor
  · intro call uid now h
    rcases Option.isSome_iff_exists.mp h with ⟨p, hp⟩
    simp [acceptCall, hp, statusOfResult]
  · intro call uid now h hk
    rcases Option.isSome_iff_exists.mp h with ⟨p, hp⟩
    rcases hk with hk | hk <;> simp [markCallAsMissed, hp, hk, statusOfResult]

/-- C4 amended, witness: both parts applied to the terminal call `cEnded`. -/
theorem acceptCall_markMissed_unguarded_witness :
    statusOfResult (acceptCall cEnded "B" 70000) = some .ACTIVE ∧
    statusOfResult (markCallAsMissed cEnded "B" 70000) = some .MISSED :=
  ⟨acceptCall_markMissed_unguarded.1 cEnded "B" 70000 (by decide),
   acceptCall_markMissed_unguarded.2 cEnded "B" 70000 (by decide) (by decide)⟩

/-- C6 amended: `joinGroupCall` is group-only (it errors on 1:1 kinds,
changing nothing) and upserts the user's row to `JOINED` on group calls
(creating one if the user was never invited); `leaveGroupCall` however
carries no call-kind check — it succeeds on 1:1 calls too — and for any
call sets the user's row to `LEFT`, cascading into `endCall` exactly when
zero `JOINED` participants remain after the update. -/
theorem group_call_join_leave_behavior :
    (∀ (call : Call) (uid : String) (now : Nat),
        (call.callType = .AUDIO_1TO1 ∨ call.callType = .VIDEO_1TO1) →
        joinGroupCall call uid now = .error "This is not a group call") ∧
    (∀ (call : Call) (uid : String) (now : Nat),
        (call.callType = .AUDIO_GROUP ∨ call.callType = .VIDEO_GROUP) →
        partStatusOfResult (joinGroupCall call uid now) uid = some .JOINED) ∧
    (∀ (call : Call) (uid : String) (now : Nat),
        (call.callType = .AUDIO_1TO1 ∨ call.callType = .VIDEO_1TO1) →
        (call.participants.find? (fun p => p.userId == uid)).isSome →
        isOkCall (leaveGroupCall call uid now) = true) ∧
    (∀ (call : Call) (uid : String) (now : Nat),
        (call.participants.find? (fun p => p.userId == uid)).isSome →
        partStatusOfResult (leaveGroupCall call uid now) uid = some .LEFT ∧
        (countJoined (leaveUpdate call uid now) = 0 →
          statusOfResult (leaveGroupCall call uid now) = some .ENDED) ∧
        (countJoined (leaveUpdate call uid now) ≠ 0 →
          statusOfResult (leaveGroupCall call uid now) = some call.status)) := by
  refine ⟨?_, ?_, ?_, ?_⟩
  · intro call uid now hk
    rcases hk with hk | hk <;> simp [joinGroupCall, hk]
  · intro call uid now hk
    have hgroup : ¬(call.callType ≠ .AUDIO_GROUP ∧ call.callType ≠ .VIDEO_GROUP) := by
      rcases hk with hk | hk <;> simp [hk]
    rcases hfp : call.participants.find? (fun p => p.userId == uid) with _ | p
    · have happ :=
        find?_append_of_none (fun p : CallParticipant => p.userId == uid)
          call.participants
          ({ userId := uid, status := .JOINED, joinedAt := some now,
             leftAt := none, isMuted := false, isVideoOff := false } : CallParticipant)
          hfp (by simp)
      simp [joinGroupCall, hgroup, hfp, partStatusOfResult, happ]
    · have hupd := find?_updateFirst (fun p => p.userId == uid)
        (fun p => { p with status := .JOINED, joinedAt := some now })
        call.participants (fun x => rfl)
      simp [joinGroupCall, hgroup, hfp, partStatusOfResult, hupd]
  · intro call uid now hk h
    rcases Option.isSome_iff_exists.mp h with ⟨p, hp⟩
    simp only [leaveGroupCall, hp]
    split <;> rfl
  · intro call uid now h
    rcases Option.isSome_iff_exists.mp h with ⟨p, hp⟩
    have hleft :
        (leaveUpdate call uid now).participants.find? (fun r => r.userId == uid) =
          some { p with status := .LEFT, leftAt := some now } := by
      have hupd := find?_updateFirst (fun r => r.userId == uid)
        (fun r => { r with status := .LEFT, leftAt := some now })
        call.participants (fun x => rfl)
      simp only [leaveUpdate]
      rw [hupd, hp]
      rfl
    refine ⟨?_, ?_, ?_⟩
    · by_cases hc : countJoined (leaveUpdate call uid now) = 0
      · have hend :
            (endCall (leaveUpdate call uid now) uid now).participants.find?
              (fun r => r.userId == uid) =
              some { p with status := .LEFT, leftAt := some now } := by
          show ((leaveUpdate call uid now).participants.map
            (fun r => if r.status == .JOINED
              then { r with status := .LEFT, leftAt := some now } else r)).find?
            (fun r => r.userId == uid) = _
          rw [find?_map_pres (fun r => r.userId == uid)
            (fun r => if r.status == .JOINED
              then { r with status := .LEFT, leftAt := some now } else r)
            (leaveUpdate call uid now).participants
            (fun x => by by_cases hx : x.status == .JOINED <;> simp [hx])]
          rw [hleft]
          rfl
        simp only [leaveGroupCall, hp]
        rw [if_pos hc]
        simp [partStatusOfResult, hend]
      · simp only [leaveGroupCall, hp]
        rw [if_neg hc]
        simp [partStatusOfResult, hleft]
    · intro hc
      simp only [leaveGroupCall, hp]
      rw [if_pos hc]
      rfl
    · intro hc
      simp only [leaveGroupCall, hp]
      rw [if_neg hc]
      rfl

/-- C6 amended, witness: all four parts at concrete calls — the group parts
on a two-person `VIDEO_GROUP` call, the 1:1 parts on `cAccepted`. -/
theorem group_call_join_leave_behavior_witness :
    joinGroupCall cAccepted "B" 60000 = .error "This is not a group call" ∧
    partStatusOfResult
      (joinGroupCall { cAccepted with callType := .VIDEO_GROUP } "C" 60000) "C" =
      some .JOINED ∧
    isOkCall (leaveGroupCall cAccepted "B" 60000) = true ∧
    partStatusOfResult (leaveGroupCall cAccepted "B" 60000) "B" = some .LEFT :=
  ⟨group_call_join_leave_behavior.1 cAccepted "B" 60000 (Or.inr rfl),
   group_call_join_leave_behavior.2.1 _ "C" 60000 (Or.inr rfl),
   group_call_join_leave_behavior.2.2.1 cAccepted "B" 60000 (Or.inr rfl) (by decide),
   (group_call_join_leave_behavior.2.2.2 cAccepted "B" 60000 (by decide)).1⟩

/-- C10 amended: a freshly created ICE batch captures the partner matched
at that moment as its timer target; the timer-driven flush relays the
batch to that captured partner; but the immediate flush on reaching 5
candidates relays it to the partner in the match map at the 5th
candidate's arrival — which, as `ice_flush_retarget_cex` shows, can
differ from the captured one. -/
theorem ice_flush_targets :
    (∀ (st : GatewayState) (c : Socket) (cand pid : String),
        aget st.matchMap c.id = some pid →
        aget st.iceCandidateBatches c.id = none →
        aget (handleIceCandidate st c cand).iceCandidateBatches c.id =
          some { candidates := [cand], timerPartnerId := pid }) ∧
    (∀ (st : GatewayState) (sid : String) (b : IceBatch),
        aget st.iceCandidateBatches sid = some b → b.candidates ≠ [] →
        (fireIceTimer st sid).emits =
          st.emits ++ [.iceCandidatesBatch b.timerPartnerId b.candidates]) ∧
    (∀ (st : GatewayState) (c : Socket) (cand pid : String) (b : IceBatch),
        aget st.matchMap c.id = some pid →
        aget st.iceCandidateBatches c.id = some b →
        b.candidates.length = 4 →
        (handleIceCandidate st c cand).emits =
          st.emits ++ [.iceCandidatesBatch pid (b.candidates ++ [cand])]) := by
  refine ⟨?_, ?_, ?_⟩
  · intro st c cand pid hm hb
    simp [handleIceCandidate, hm, hb, aget_aset_self]
  · intro st sid b hb hne
    have hempty : b.candidates.isEmpty = false := by
      cases hcs : b.candidates with
      | nil => exact absurd hcs hne
      | cons x xs => rfl
    simp [fireIceTimer, hb, flushIceBatch, hempty]
  · intro st c cand pid b hm hb hlen
    have hempty : (b.candidates ++ [cand]).isEmpty = false := by
      cases b.candidates <;> rfl
    simp [handleIceCandidate, hm, hb, hlen, flushIceBatch, aget_aset_self, hempty]

/-- C10 amended, witness: all three parts at the concrete retargeting run —
batch capture after `iceOpsCapture`, a timer flush of that batch, and the
5th-candidate flush out of the state just before the last candidate. -/
theorem ice_flush_targets_witness :
    aget (handleIceCandidate (runGwOps (iceOpsCapture.take 2)) sA "c1").iceCandidateBatches
      "a1" = some { candidates := ["c1"], timerPartnerId := "p1" } ∧
    (fireIceTimer (runGwOps iceOpsCapture) "a1").emits =
      (runGwOps iceOpsCapture).emits ++ [.iceCandidatesBatch "p1" ["c1"]] ∧
    (handleIceCandidate (runGwOps (iceOpsAll.take 9)) sA "c5").emits =
      (runGwOps (iceOpsAll.take 9)).emits ++
        [.iceCandidatesBatch "p2" (["c1", "c2", "c3", "c4"] ++ ["c5"])] :=
  ⟨ice_flush_targets.1 (runGwOps (iceOpsCapture.take 2)) sA "c1" "p1"
      (by decide) (by decide),
   ice_flush_targets.2.1 (runGwOps iceOpsCapture) "a1"
      { candidates := ["c1"], timerPartnerId := "p1" } (by decide) (by decide),
   ice_flush_targets.2.2 (runGwOps (iceOpsAll.take 9)) sA "c5" "p2"
      { candidates := ["c1", "c2", "c3", "c4"], timerPartnerId := "p1" }
      (by decide) (by decide) (by decide)⟩

/-- C7 amended: the sender-facing aggregate of `getMessagesWithReadStatus`
ranges over the message's *existing* `MessageRead` rows of users other than
the sender, not over all conversation participants: it is `read` exactly
when every such row has `readAt` set and at least one such row exists (a
recipient with no row at all is ignored, so it does not count against
`read`); otherwise `delivered` exactly when some such row has `deliveredAt`
set; otherwise `sent`. -/
theorem aggregate_status_over_rows (m : ChatMessage) (uid : String)
    (h : m.senderId = uid) :
    messageStatus m uid =
      (if (∀ r ∈ m.reads.filter (fun s : MessageRead => s.userId != uid), r.readAt.isSome) ∧
          m.reads.filter (fun s : MessageRead => s.userId != uid) ≠ [] then "read"
       else if ∃ r ∈ m.reads.filter (fun s : MessageRead => s.userId != uid),
          r.deliveredAt.isSome then "delivered"
       else "sent") := by
  have hsend : (m.senderId == uid) = true := by simp [h]
  simp only [messageStatus, hsend, if_true]
  refine if_congr ?_ rfl (if_congr ?_ rfl rfl)
  · rw [List.all_eq_true, List.length_pos, ne_eq]
  · rw [List.any_eq_true]

/-- C7 amended, witness: the characterization applied to the concrete
3-person message `cxMsg` of the counterexample. -/
theorem aggregate_status_over_rows_witness :
    messageStatus cxMsg "U" =
      (if (∀ r ∈ cxMsg.reads.filter (fun s : MessageRead => s.userId != "U"), r.readAt.isSome) ∧
          cxMsg.reads.filter (fun s : MessageRead => s.userId != "U") ≠ [] then "read"
       else if ∃ r ∈ cxMsg.reads.filter (fun s : MessageRead => s.userId != "U"),
          r.deliveredAt.isSome then "delivered"
       else "sent") :=
  aggregate_status_over_rows cxMsg "U" rfl

/-! ## Claim C8 — read implies delivered

Every `MessageRead` row is created with `deliveredAt` stamped (by both the
`markMessageAsDelivered` and the `markMessageAsRead`/bulk create branches),
and no update ever clears it; so in every reachable row a set `readAt`
coexists with a set `deliveredAt`. -/

theorem mem_updateFirst {α : Type} (p : α → Bool) (f : α → α) (l : List α) (x : α)
    (hx : x ∈ updateFirst p f l) : x ∈ l ∨ ∃ y ∈ l, x = f y := by
  induction l with
  | nil => simp [updateFirst] at hx
  | cons a as ih =>
      by_cases h : p a
      · rw [updateFirst, if_pos h] at hx
        rcases List.mem_cons.mp hx with hx | hx
        · exact Or.inr ⟨a, List.mem_cons_self a as, hx⟩
        · exact Or.inl (List.mem_cons_of_mem _ hx)
      · rw [updateFirst, if_neg h] at hx
        rcases List.mem_cons.mp hx with hx | hx
        · exact Or.inl (hx ▸ List.mem_cons_self a as)
        · rcases ih hx with h1 | ⟨y, hy, hxy⟩
          · exact Or.inl (List.mem_cons_of_mem _ h1)
          · exact Or.inr ⟨y, List.mem_cons_of_mem _ hy, hxy⟩

theorem rows_delivered_upsert (rows : List MRRow) (mid uid : String)
    (created : MRRow) (upd : MRRow → MRRow)
    (hrows : ∀ r ∈ rows, r.deliveredAt.isSome)
    (hc : created.deliveredAt.isSome)
    (hu : ∀ r, r.deliveredAt.isSome → (upd r).deliveredAt.isSome) :
    ∀ r ∈ upsertRow rows mid uid created upd, r.deliveredAt.isSome := by
  intro r hr
  rw [upsertRow] at hr
  split at hr
  · rcases mem_updateFirst _ _ _ _ hr with h1 | ⟨y, hy, rfl⟩
    · exact hrows r h1
    · exact hu y (hrows y hy)
  · rcases List.mem_append.mp hr with h1 | h1
    · exact hrows r h1
    · rw [List.mem_singleton.mp h1]
      exact hc

theorem rows_delivered_write (st : DbState) (w : DbWrite)
    (h : ∀ r ∈ st.rows, r.deliveredAt.isSome) :
    ∀ r ∈ (applyDbWrite st w).rows, r.deliveredAt.isSome := by
  cases w with
  | upsertReadRow mid uid now =>
      exact rows_delivered_upsert _ _ _ _ _ h rfl (fun r hr => hr)
  | upsertConversationRead cid uid mid now => exact h
  | deleteConvMessages cid => exact h
  | deleteConvUsers cid => exact h
  | deleteConv cid => exact h

theorem rows_delivered_independent (fails : DbWrite → Bool) :
    ∀ (ws : List DbWrite) (st : DbState),
      (∀ r ∈ st.rows, r.deliveredAt.isSome) →
      ∀ r ∈ (runIndependentWrites fails st ws).rows, r.deliveredAt.isSome := by
  intro ws
  induction ws with
  | nil => exact fun st h => h
  | cons w ws ih =>
      intro st h
      show ∀ r ∈ (runIndependentWrites fails
        (if fails w then st else applyDbWrite st w) ws).rows, r.deliveredAt.isSome
      by_cases hf : fails w
      · rw [if_pos hf]
        exact ih st h
      · rw [if_neg hf]
        exact ih _ (rows_delivered_write st w h)

theorem rows_delivered_chatOp (st : DbState) (op : ChatOp)
    (h : ∀ r ∈ st.rows, r.deliveredAt.isSome) :
    ∀ r ∈ (applyChatOp st op).rows, r.deliveredAt.isSome := by
  cases op with
  | markDelivered mid uid now =>
      simp only [applyChatOp, markMessageAsDelivered]
      split
      · exact h
      · split
        · exact h
        · exact rows_delivered_upsert _ _ _ _ _ h rfl (fun r _ => rfl)
  | markRead mid uid now =>
      simp only [applyChatOp, markMessageAsRead]
      split
      · exact h
      · split
        · exact h
        · exact rows_delivered_upsert _ _ _ _ _ h rfl (fun r hr => hr)
  | markConversationRead cid uid now =>
      simp only [applyChatOp, markConversationAsReadDb]
      split
      · exact h
      · have hrows := rows_delivered_independent (fun _ => false)
          (readMarkWrites st cid uid now) st h
        split
        · exact hrows
        · split
          · exact hrows
          · exact hrows

/-- C8: for every starting store with no `MessageRead` rows and every
sequence of `markDelivered`, `markRead` and `markConversationRead`
operations, every reachable row with `readAt` set also has `deliveredAt`
set. -/
theorem read_implies_delivered (conversations : List Conversation)
    (convUsers : List (String × String)) (messages : List MsgMeta)
    (convReads : List ConversationRead) (ops : List ChatOp) :
    ∀ r ∈ (runChatOps
        { conversations := conversations, convUsers := convUsers,
          messages := messages, rows := [], convReads := convReads } ops).rows,
      r.readAt.isSome → r.deliveredAt.isSome := by
  suffices hall : ∀ (st : DbState), (∀ r ∈ st.rows, r.deliveredAt.isSome) →
      ∀ r ∈ (runChatOps st ops).rows, r.deliveredAt.isSome by
    intro r hr _
    exact hall _ (by simp) r hr
  induction ops with
  | nil => exact fun st h => h
  | cons op ops ih =>
      intro st h
      exact ih _ (rows_delivered_chatOp st op h)

/-- C8, witness: marking message `m1` (sent by "A" in `conv1`) read by "B"
produces a row whose `deliveredAt` is set. -/
theorem read_implies_delivered_witness :
    (MRRow.mk "m1" "B" (some 5) (some 5)).deliveredAt.isSome :=
  read_implies_delivered
    [{ id := "conv1", isGroup := true, ownerId := some "A" }]
    [("conv1", "A"), ("conv1", "B")]
    [{ id := "m1", conversationId := "conv1", senderId := "A", createdAt := 1 }]
    [] [.markRead "m1" "B" 5]
    (MRRow.mk "m1" "B" (some 5) (some 5)) (by decide) (by decide)

/-! ## Claim C9 — write disciplines of the two bulk operations -/

theorem find?_updateFirst_disjoint {α : Type} (p q : α → Bool) (f : α → α)
    (l : List α) (hdisj : ∀ x, q x = true → p x = false)
    (hpf : ∀ x, p (f x) = p x) :
    (updateFirst q f l).find? p = l.find? p := by
  induction l with
  | nil => simp [updateFirst]
  | cons a as ih =>
      by_cases hq : q a
      · rw [updateFirst, if_pos hq]
        have hpa : p a = false := hdisj a hq
        have hpfa : p (f a) = false := by rw [hpf]; exact hpa
        rw [List.find?_cons_of_neg _ (by simp [hpfa]),
          List.find?_cons_of_neg _ (by simp [hpa])]
      · rw [updateFirst, if_neg hq]
        by_cases hp : p a
        · rw [List.find?_cons_of_pos _ hp, List.find?_cons_of_pos _ hp]
        · rw [List.find?_cons_of_neg _ hp, List.find?_cons_of_neg _ hp]
          exact ih

theorem find?_append_singleton_neg {α : Type} (p : α → Bool) (l : List α)
    (a : α) (ha : p a = false) : (l ++ [a]).find? p = l.find? p := by
  induction l with
  | nil => simp [List.find?, ha]
  | cons x xs ih =>
      by_cases h : p x
      · rw [List.cons_append, List.find?_cons_of_pos _ h, List.find?_cons_of_pos _ h]
      · rw [List.cons_append, List.find?_cons_of_neg _ h, List.find?_cons_of_neg _ h]
        exact ih

theorem findRow_upsert_self (rows : List MRRow) (mid uid : String)
    (created : MRRow) (upd : MRRow → MRRow)
    (hc : created.messageId = mid ∧ created.userId = uid)
    (hupd : ∀ r, (upd r).messageId = r.messageId ∧ (upd r).userId = r.userId) :
    ∃ r', findRow (upsertRow rows mid uid created upd) mid uid = some r' ∧
      (r' = created ∨ ∃ r0, findRow rows mid uid = some r0 ∧ r' = upd r0) := by
  by_cases h : (findRow rows mid uid).isSome
  · rcases Option.isSome_iff_exists.mp h with ⟨r0, hr0⟩
    refine ⟨upd r0, ?_, Or.inr ⟨r0, hr0, rfl⟩⟩
    rw [upsertRow, if_pos h, findRow,
      find?_updateFirst (fun r => r.messageId == mid && r.userId == uid) upd rows
        (fun x => by simp [(hupd x).1, (hupd x).2])]
    rw [findRow] at hr0
    rw [hr0]
    rfl
  · refine ⟨created, ?_, Or.inl rfl⟩
    rw [upsertRow, if_neg h, findRow]
    apply find?_append_of_none
    · have := Option.not_isSome_iff_eq_none.mp h
      rw [findRow] at this
      exact this
    · simp [hc.1, hc.2]

theorem findRow_upsert_other (rows : List MRRow) (mid' uid' mid uid : String)
    (created : MRRow) (upd : MRRow → MRRow)
    (hkey : ¬(mid' = mid ∧ uid' = uid))
    (hc : created.messageId = mid' ∧ created.userId = uid')
    (hupd : ∀ r, (upd r).messageId = r.messageId ∧ (upd r).userId = r.userId) :
    findRow (upsertRow rows mid' uid' created upd) mid uid = findRow rows mid uid := by
  have hdisj : ∀ x : MRRow, (x.messageId == mid' && x.userId == uid') = true →
      (x.messageId == mid && x.userId == uid) = false := by
    intro x hx
    simp only [Bool.and_eq_true, beq_iff_eq] at hx
    by_contra hcon
    simp only [Bool.not_eq_false, Bool.and_eq_true, beq_iff_eq] at hcon
    exact hkey ⟨hx.1 ▸ hcon.1, hx.2 ▸ hcon.2⟩
  by_cases h : (findRow rows mid' uid').isSome
  · rw [upsertRow, if_pos h, findRow, findRow]
    exact find?_updateFirst_disjoint _ _ upd rows hdisj
      (fun x => by simp [(hupd x).1, (hupd x).2])
  · rw [upsertRow, if_neg h, findRow, findRow]
    apply find?_append_singleton_neg
    apply hdisj
    simp [hc.1, hc.2]

/-- Under `Promise.all`, each read-marking write commits on its own: if the
write for message `mid` is in the batch and the store does not reject that
particular write, the row ends up read-marked no matter which other writes
of the batch fail. -/
theorem independent_row_marked (fails : DbWrite → Bool) (uid : String) (now : Nat) :
    ∀ (ws : List DbWrite) (st : DbState) (mid : String),
      (∀ w ∈ ws, ∃ mid', w = DbWrite.upsertReadRow mid' uid now) →
      ((∃ r, findRow st.rows mid uid = some r ∧ r.readAt = some now) ∨
        (DbWrite.upsertReadRow mid uid now ∈ ws ∧
          fails (DbWrite.upsertReadRow mid uid now) = false)) →
      ∃ r, findRow (runIndependentWrites fails st ws).rows mid uid = some r ∧
        r.readAt = some now := by
  intro ws
  induction ws with
  | nil =>
      intro st mid _ hgood
      rcases hgood with hgood | ⟨hmem, _⟩
      · exact hgood
      · simp at hmem
  | cons w ws ih =>
      intro st mid hall hgood
      obtain ⟨mid', rfl⟩ := hall w (List.mem_cons_self w ws)
      show ∃ r, findRow (runIndependentWrites fails
        (if fails (DbWrite.upsertReadRow mid' uid now) then st
         else applyDbWrite st (DbWrite.upsertReadRow mid' uid now)) ws).rows mid uid =
        some r ∧ r.readAt = some now
      have hall' : ∀ w ∈ ws, ∃ mid', w = DbWrite.upsertReadRow mid' uid now :=
        fun w hw => hall w (List.mem_cons_of_mem _ hw)
      by_cases hf : fails (DbWrite.upsertReadRow mid' uid now)
      · rw [if_pos hf]
        apply ih _ mid hall'
        rcases hgood with hgood | ⟨hmem, hfo⟩
        · exact Or.inl hgood
        · rcases List.mem_cons.mp hmem with heq | hmem'
          · exfalso
            have : mid = mid' := by injection heq
            rw [this] at hfo
            rw [hfo] at hf
            exact Bool.false_ne_true hf
          · exact Or.inr ⟨hmem', hfo⟩
      · rw [if_neg hf]
        apply ih _ mid hall'
        by_cases hmid : mid' = mid
        · subst hmid
          left
          have hself := findRow_upsert_self st.rows mid' uid
            { messageId := mid', userId := uid,
              deliveredAt := some now, readAt := some now }
            (fun r => { r with readAt := some now }) ⟨rfl, rfl⟩
            (fun r => ⟨rfl, rfl⟩)
          rcases hself with ⟨r', hr', hcase⟩
          refine ⟨r', hr', ?_⟩
          rcases hcase with rfl | ⟨r0, _, rfl⟩ <;> rfl
        · rcases hgood with ⟨r, hr, hra⟩ | ⟨hmem, hfo⟩
          · left
            refine ⟨r, ?_, hra⟩
            have hother := findRow_upsert_other st.rows mid' uid mid uid
              { messageId := mid', userId := uid,
                deliveredAt := some now, readAt := some now }
              (fun r => { r with readAt := some now })
              (fun hcon => hmid hcon.1) ⟨rfl, rfl⟩ (fun r => ⟨rfl, rfl⟩)
            show findRow (upsertRow st.rows mid' uid _ _) mid uid = some r
            rw [hother]
            exact hr
          · right
            refine ⟨?_, hfo⟩
            rcases List.mem_cons.mp hmem with heq | hm
            · exfalso
              have : mid = mid' := by injection heq
              exact hmid this.symm
            · exact hm

/-- C9 amended: `deleteConversation` is transactional — either nothing
changes or the conversation, its membership rows and its messages are all
gone; `markConversationAsRead` is not — its per-message read upserts run as
independent `Promise.all` writes, so each non-rejected row write is
persisted even when another write of the same bulk operation fails
(`markConversationRead_partial_cex` shows the resulting partial state). -/
theorem bulk_write_disciplines :
    (∀ (fails : DbWrite → Bool) (st : DbState) (cid uid : String),
        deleteConversationDb fails st cid uid = st ∨
        ((∀ m ∈ (deleteConversationDb fails st cid uid).messages,
            m.conversationId ≠ cid) ∧
         (∀ e ∈ (deleteConversationDb fails st cid uid).convUsers, e.1 ≠ cid) ∧
         (∀ c ∈ (deleteConversationDb fails st cid uid).conversations,
            c.id ≠ cid))) ∧
    (∀ (fails : DbWrite → Bool) (st : DbState) (cid uid : String) (now : Nat)
        (m : MsgMeta), m ∈ unreadTargets st cid uid →
        fails (.upsertReadRow m.id uid now) = false →
        ∃ r, findRow (markConversationAsReadDb fails st cid uid now).rows m.id uid =
          some r ∧ r.readAt = some now) := by
  constructor
  · intro fails st cid uid
    have htxn : runTransactionWrites fails st (deleteConvWrites cid) = st ∨
        ((∀ m ∈ (runTransactionWrites fails st (deleteConvWrites cid)).messages,
            m.conversationId ≠ cid) ∧
         (∀ e ∈ (runTransactionWrites fails st (deleteConvWrites cid)).convUsers,
            e.1 ≠ cid) ∧
         (∀ c ∈ (runTransactionWrites fails st (deleteConvWrites cid)).conversations,
            c.id ≠ cid)) := by
      rw [runTransactionWrites]
      by_cases hany : ((deleteConvWrites cid).any fails) = true
      · rw [if_pos hany]
        exact Or.inl rfl
      · rw [if_neg hany]
        right
        refine ⟨?_, ?_, ?_⟩ <;> intro x hx <;>
          simp [deleteConvWrites, applyDbWrite, List.mem_filter] at hx <;>
          exact hx.2
    rw [deleteConversationDb]
    split
    · exact Or.inl rfl
    · split
      · split
        · exact Or.inl rfl
        · exact htxn
      · split
        · exact htxn
        · exact Or.inl rfl
  · intro fails st cid uid now m hm hf
    have hmarked := independent_row_marked fails uid now
      (readMarkWrites st cid uid now) st m.id
      (fun w hw => by
        rcases List.mem_map.mp hw with ⟨m', _, rfl⟩
        exact ⟨m'.id, rfl⟩)
      (Or.inr ⟨List.mem_map.mpr ⟨m, hm, rfl⟩, hf⟩)
    rw [markConversationAsReadDb]
    split
    · rename_i heq
      rw [unreadTargets, heq] at hm
      simp at hm
    · split
      · exact hmarked
      · split
        · exact hmarked
        · exact hmarked

/-- C9 amended, witness: both parts at concrete inputs — the transactional
delete of `conv1` by its owner with no failing write, and the independent
read-marking of `m1` under the store that rejects `m2`'s write. -/
theorem bulk_write_disciplines_witness :
    (deleteConversationDb (fun _ => false) dbSt "conv1" "A" = dbSt ∨
      ((∀ m ∈ (deleteConversationDb (fun _ => false) dbSt "conv1" "A").messages,
          m.conversationId ≠ "conv1") ∧
       (∀ e ∈ (deleteConversationDb (fun _ => false) dbSt "conv1" "A").convUsers,
          e.1 ≠ "conv1") ∧
       (∀ c ∈ (deleteConversationDb (fun _ => false) dbSt "conv1" "A").conversations,
          c.id ≠ "conv1"))) ∧
    (∃ r, findRow (markConversationAsReadDb failsM2 dbSt "conv1" "B" 7).rows "m1" "B" =
      some r ∧ r.readAt = some 7) :=
  ⟨bulk_write_disciplines.1 (fun _ => false) dbSt "conv1" "A",
   bulk_write_disciplines.2 failsM2 dbSt "conv1" "B" 7
     { id := "m1", conversationId := "conv1", senderId := "A", createdAt := 1 }
     (by decide) (by decide)⟩

/-! ## Claim C2 — matchmaking state invariants

The strengthened inductive invariant `GwInv` (symmetry, matched-not-
waiting, distinct queue ids) is preserved by every gateway handler; the
claim follows for every operation sequence from the empty state. -/

theorem aget_adel_sub {α : Type} (m : List (String × α)) (k a : String) (b : α)
    (h : aget (adel m k) a = some b) : aget m a = some b := by
  by_cases hak : a = k
  · subst hak
    rw [aget_adel_self] at h
    exact absurd h (by simp)
  · rwa [aget_adel_ne _ _ _ hak] at h

theorem symm_insert (ms : List (String × String)) (x y : String)
    (hxy : x ≠ y) (hx : aget ms x = none) (hy : aget ms y = none)
    (hs : MatchMapSymmetric ms) :
    MatchMapSymmetric (aset (aset ms x y) y x) := by
  intro a b hab
  by_cases hay : a = y
  · subst hay
    rw [aget_aset_self] at hab
    obtain rfl : x = b := by injection hab
    rw [aget_aset_ne _ _ _ _ hxy, aget_aset_self]
  · by_cases hax : a = x
    · subst hax
      rw [aget_aset_ne _ _ _ _ hxy, aget_aset_self] at hab
      obtain rfl : y = b := by injection hab
      rw [aget_aset_self]
    · rw [aget_aset_ne _ _ _ _ hay, aget_aset_ne _ _ _ _ hax] at hab
      have hba := hs a b hab
      have hbx : b ≠ x := by
        intro hbx
        subst hbx
        rw [hx] at hba
        exact absurd hba (by simp)
      have hby : b ≠ y := by
        intro hby
        subst hby
        rw [hy] at hba
        exact absurd hba (by simp)
      rw [aget_aset_ne _ _ _ _ hby, aget_aset_ne _ _ _ _ hbx]
      exact hba

theorem notWaiting_insert (ms : List (String × String)) (x y : String)
    (q : List Socket)
    (hxq : ∀ s ∈ q, s.id ≠ x) (hyq : ∀ s ∈ q, s.id ≠ y)
    (hnw : MatchedNotWaiting ms q) :
    MatchedNotWaiting (aset (aset ms x y) y x) q := by
  intro a b hab s hsq
  by_cases hay : a = y
  · subst hay
    exact hyq s hsq
  · by_cases hax : a = x
    · subst hax
      exact hxq s hsq
    · rw [aget_aset_ne _ _ _ _ hay, aget_aset_ne _ _ _ _ hax] at hab
      exact hnw a b hab s hsq

theorem symm_adel_none (ms : List (String × String)) (cid : String)
    (hs : MatchMapSymmetric ms) (hc : aget ms cid = none) :
    MatchMapSymmetric (adel ms cid) := by
  intro a b hab
  have hac : a ≠ cid := by
    intro h
    subst h
    rw [aget_adel_self] at hab
    exact absurd hab (by simp)
  rw [aget_adel_ne _ _ _ hac] at hab
  have hba := hs a b hab
  have hbc : b ≠ cid := by
    intro h
    subst h
    rw [hc] at hba
    exact absurd hba (by simp)
  rw [aget_adel_ne _ _ _ hbc]
  exact hba

theorem symm_adel_pair (ms : List (String × String)) (cid pid : String)
    (hs : MatchMapSymmetric ms) (hc : aget ms cid = some pid) :
    MatchMapSymmetric (adel (adel ms pid) cid) := by
  have hpc := hs cid pid hc
  intro a b hab
  have hac : a ≠ cid := by
    intro h
    subst h
    rw [aget_adel_self] at hab
    exact absurd hab (by simp)
  rw [aget_adel_ne _ _ _ hac] at hab
  have hap : a ≠ pid := by
    intro h
    subst h
    rw [aget_adel_self] at hab
    exact absurd hab (by simp)
  rw [aget_adel_ne _ _ _ hap] at hab
  have hba := hs a b hab
  have hbc : b ≠ cid := by
    intro h
    subst h
    rw [hc] at hba
    obtain rfl : pid = a := by injection hba
    exact hap rfl
  have hbp : b ≠ pid := by
    intro h
    subst h
    rw [hpc] at hba
    obtain rfl : cid = a := by injection hba
    exact hac rfl
  rw [aget_adel_ne _ _ _ hbc, aget_adel_ne _ _ _ hbp]
  exact hba

theorem cleanupUser_inv (st : GatewayState) (c : Socket) (h : GwInv st) :
    GwInv (cleanupUser st c) := by
  obtain ⟨hs, hw, hn⟩ := h
  have hqsub : ∀ s, s ∈ st.waitingQueue.filter (fun s => s.id ≠ c.id) →
      s ∈ st.waitingQueue := fun s hs' => (List.mem_filter.mp hs').1
  have hnq : ((st.waitingQueue.filter (fun s => s.id ≠ c.id)).map
      (fun s => s.id)).Nodup :=
    hn.sublist (List.Sublist.map _ (List.filter_sublist _))
  rw [cleanupUser]
  split
  · rename_i pid hpid
    refine ⟨symm_adel_pair _ _ _ hs hpid, ?_, hnq⟩
    intro a b hab s hs'
    exact hw a b (aget_adel_sub _ _ _ _ (aget_adel_sub _ _ _ _ hab)) s (hqsub s hs')
  · rename_i hpid
    refine ⟨symm_adel_none _ _ hs hpid, ?_, hnq⟩
    intro a b hab s hs'
    exact hw a b (aget_adel_sub _ _ _ _ hab) s (hqsub s hs')

theorem fpGo_inv (c : Socket) (live : List String) (t : Nat) :
    ∀ (q : List Socket) (ms : List (String × String)) (rl : List (String × Nat))
      (bs : List (String × IceBatch)) (em : List GwEvent),
      MatchMapSymmetric ms → MatchedNotWaiting ms q →
      (q.map (fun s => s.id)).Nodup →
      GwInv (fpGo c live t q ms rl bs em) := by
  intro q
  induction q with
  | nil =>
      intro ms rl bs em hs hw hn
      rw [fpGo]
      split
      · exact ⟨hs, hw, hn⟩
      · split
        · exact ⟨hs, hw, hn⟩
        · split
          · exact ⟨hs, hw, hn⟩
          · rename_i hnm _
            refine ⟨hs, ?_, by simp⟩
            intro a b hab s hsq
            rcases List.mem_singleton.mp hsq with rfl
            intro hca
            rw [hca] at hnm
            exact hnm (Option.isSome_iff_exists.mpr ⟨b, hab⟩)
  | cons partner rest ih =>
      intro ms rl bs em hs hw hn
      rw [fpGo]
      split
      · exact ⟨hs, hw, hn⟩
      · split
        · exact ⟨hs, hw, hn⟩
        · split
          · exact ⟨hs, hw, hn⟩
          · rename_i hnm hnq
            have hmc : aget ms c.id = none := by
              rcases hx : aget ms c.id with _ | b
              · rfl
              · exact absurd (Option.isSome_iff_exists.mpr ⟨b, hx⟩) hnm
            have hq : ∀ s ∈ partner :: rest, s.id ≠ c.id := by
              intro s hsq
              have := (List.any_eq_true.not.mp hnq)
              push_neg at this
              have h2 := this s hsq
              simpa using h2
            have hpm : aget ms partner.id = none := by
              rcases hx : aget ms partner.id with _ | b
              · rfl
              · exact absurd rfl
                  (hw partner.id b hx partner (List.mem_cons_self partner rest))
            have hnodup : (∀ x ∈ rest, ¬x.id = partner.id) ∧
                (rest.map (fun s => s.id)).Nodup := by simpa using hn
            split
            · exact ⟨symm_insert ms c.id partner.id
                (Ne.symm (hq partner (List.mem_cons_self partner rest))) hmc hpm hs,
                notWaiting_insert ms c.id partner.id rest
                  (fun s hsq => hq s (List.mem_cons_of_mem _ hsq))
                  (fun s hsq => hnodup.1 s hsq)
                  (fun a b hab s hsq =>
                    hw a b hab s (List.mem_cons_of_mem _ hsq)), hnodup.2⟩
            · exact ih ms (rateLimitStamp rl c.userId t) bs em hs
                (fun a b hab s hsq => hw a b hab s (List.mem_cons_of_mem _ hsq))
                hnodup.2

theorem flushIce_fields (st : GatewayState) (sid pid : String) :
    (flushIceBatch st sid pid).matchMap = st.matchMap ∧
    (flushIceBatch st sid pid).waitingQueue = st.waitingQueue := by
  rcases hb : aget st.iceCandidateBatches sid with _ | b
  · simp [flushIceBatch, hb]
  · by_cases he : b.candidates.isEmpty <;> simp [flushIceBatch, hb, he]

theorem handleIce_fields (st : GatewayState) (c : Socket) (cand : String) :
    (handleIceCandidate st c cand).matchMap = st.matchMap ∧
    (handleIceCandidate st c cand).waitingQueue = st.waitingQueue := by
  rcases hm : aget st.matchMap c.id with _ | pid
  · simp [handleIceCandidate, hm]
  · simp only [handleIceCandidate, hm]
    split
    · exact ⟨(flushIce_fields _ _ _).1, (flushIce_fields _ _ _).2⟩
    · exact ⟨rfl, rfl⟩

theorem fireIce_fields (st : GatewayState) (sid : String) :
    (fireIceTimer st sid).matchMap = st.matchMap ∧
    (fireIceTimer st sid).waitingQueue = st.waitingQueue := by
  rcases hb : aget st.iceCandidateBatches sid with _ | b
  · simp [fireIceTimer, hb]
  · simp only [fireIceTimer, hb]
    exact ⟨(flushIce_fields _ _ _).1, (flushIce_fields _ _ _).2⟩

theorem applyGwOp_inv (st : GatewayState) (op : GwOp) (h : GwInv st) :
    GwInv (applyGwOp st op) := by
  obtain ⟨hs, hw, hn⟩ := h
  cases op with
  | findPartner c live t =>
      exact fpGo_inv c live t st.waitingQueue st.matchMap st.rateLimitMap
        st.iceCandidateBatches st.emits hs hw hn
  | leavePool c =>
      have h1 := cleanupUser_inv st c ⟨hs, hw, hn⟩
      exact ⟨h1.1, h1.2.1, h1.2.2⟩
  | disconnect c =>
      have h1 := cleanupUser_inv st c ⟨hs, hw, hn⟩
      exact ⟨h1.1, h1.2.1, h1.2.2⟩
  | iceCandidate c cand =>
      obtain ⟨h1, h2⟩ := handleIce_fields st c cand
      exact ⟨by rw [show (applyGwOp st (.iceCandidate c cand)).matchMap =
          st.matchMap from h1]; exact hs,
        by rw [show (applyGwOp st (.iceCandidate c cand)).matchMap =
          st.matchMap from h1, show (applyGwOp st (.iceCandidate c cand)).waitingQueue =
          st.waitingQueue from h2]; exact hw,
        by rw [show (applyGwOp st (.iceCandidate c cand)).waitingQueue =
          st.waitingQueue from h2]; exact hn⟩
  | iceTimerFire sid =>
      obtain ⟨h1, h2⟩ := fireIce_fields st sid
      exact ⟨by rw [show (applyGwOp st (.iceTimerFire sid)).matchMap =
          st.matchMap from h1]; exact hs,
        by rw [show (applyGwOp st (.iceTimerFire sid)).matchMap =
          st.matchMap from h1, show (applyGwOp st (.iceTimerFire sid)).waitingQueue =
          st.waitingQueue from h2]; exact hw,
        by rw [show (applyGwOp st (.iceTimerFire sid)).waitingQueue =
          st.waitingQueue from h2]; exact hn⟩

theorem run_inv (ops : List GwOp) : GwInv (runGwOps ops) := by
  suffices hall : ∀ st, GwInv st → GwInv (ops.foldl applyGwOp st) by
    refine hall _ ⟨?_, ?_, ?_⟩
    · intro a b hab
      exact absurd hab (by simp [aget, GatewayState.init])
    · intro a b hab
      exact absurd hab (by simp [aget, GatewayState.init])
    · simp [GatewayState.init]
  induction ops with
  | nil => exact fun st h => h
  | cons op ops ih => exact fun st h => ih _ (applyGwOp_inv st op h)

/-- C2: after every sequence of gateway operations (partner requests,
pool leaves, disconnect cleanups — and the ICE events, which touch no
matchmaking state) from the empty state, the match map is symmetric, no
connection id appears in more than one match, and no matched connection
id sits in the waiting pool. -/
theorem matchmaking_invariants (ops : List GwOp) :
    MatchMapSymmetric (runGwOps ops).matchMap ∧
    AtMostOneMatch (runGwOps ops).matchMap ∧
    MatchedNotWaiting (runGwOps ops).matchMap (runGwOps ops).waitingQueue := by
  obtain ⟨hs, hw, _⟩ := run_inv ops
  refine ⟨hs, ?_, hw⟩
  intro a b p ha hb
  have h1 := hs a p ha
  have h2 := hs b p hb
  rw [h1] at h2
  exact Option.some.inj h2

/-- C2, witness: the invariants after a concrete two-request run in which
`s1` enqueues and then `r1` matches with it. -/
theorem matchmaking_invariants_witness :
    MatchMapSymmetric
      (runGwOps [.findPartner sPool ["s1"] 0,
        .findPartner sReq ["s1"] 5000]).matchMap ∧
    AtMostOneMatch
      (runGwOps [.findPartner sPool ["s1"] 0,
        .findPartner sReq ["s1"] 5000]).matchMap ∧
    MatchedNotWaiting
      (runGwOps [.findPartner sPool ["s1"] 0,
        .findPartner sReq ["s1"] 5000]).matchMap
      (runGwOps [.findPartner sPool ["s1"] 0,
        .findPartner sReq ["s1"] 5000]).waitingQueue :=
  matchmaking_invariants [.findPartner sPool ["s1"] 0, .findPartner sReq ["s1"] 5000]

/-- C5, witness: the scenario at start time 8000 and accept time 9000. -/
theorem video1to1_scenario_witness :
    ∃ c0 c1,
      initiateCall ["A", "B"] "A" ["B"] .VIDEO_1TO1 none 8000 = .ok c0 ∧
      c0.status = .CALLING ∧
      partStatus c0 "B" = some .INVITED ∧
      partStatus c0 "A" = some .JOINED ∧
      acceptCall c0 "B" 9000 = .ok c1 ∧
      c1.status = .ACTIVE ∧
      partStatus c1 "B" = some .JOINED ∧
      (endCall c1 "A" (8000 + 42000)).status = .ENDED ∧
      (endCall c1 "A" (8000 + 42000)).duration = some 42 ∧
      ((endCall c1 "A" (8000 + 42000)).participants.all
        (fun p => p.status == .LEFT)) = true :=
  video1to1_scenario 8000 9000

end NestChat
